import Mathlib

/-!
Verification development for the two ETL pipeline scripts of this repository:
banks_project.py (largest banks by market capitalization) and
etl_project_gdp.py (countries by GDP).  The Python code is shallowly embedded:
DataFrame columns become lists, cells become a tagged value type, the SQLite
store becomes an association list, exceptions become Except, and the log file
becomes a list of messages threaded through the run.  External library calls
(requests, BeautifulSoup, pandas parsing, float parsing) are modelled at their
interfaces, faithful to their documented behavior on the inputs the scripts
produce.
-/

/-! ## String primitives (models of Python str methods used by the scripts) -/

/-- Model of Python str.lower, as used in df.Country.str.lower()
(etl_project_gdp.py line 71).  ASCII case folding suffices for the
exclusion values the script compares against. -/
def pyLower (s : String) : String := ⟨s.data.map Char.toLower⟩

/-- Model of Python str.strip (leading and trailing whitespace removal),
used by float parsing which ignores surrounding whitespace. -/
def pyStrip (s : String) : String :=
  ⟨((s.data.dropWhile Char.isWhitespace).reverse.dropWhile Char.isWhitespace).reverse⟩

/-- Model of the Python substring test needle in haystack, on character
lists: some contiguous run of hay equals the needle.  Case-sensitive. -/
def listContains (hay needle : List Char) : Bool :=
  match hay with
  | [] => needle.isEmpty
  | _ :: t => needle.isPrefixOf hay || listContains t needle

/-- String version of listContains: model of the Python test sub in s. -/
def strContains (s sub : String) : Bool := listContains s.data sub.data

/-! ## Noise stripping

etl_project_gdp.py line 74-76 runs
re.sub on every cell with the pattern that matches a bracketed footnote
(lazy, no newline inside), a comma, or an em-dash, replacing each match
with the empty string.  stripAux mirrors the left-to-right scan of re.sub:
at each position the footnote alternative is tried first (shortest match,
up to the nearest closing bracket with no newline before it), then the
single-character alternatives. -/

/-- Given the characters after an opening bracket, return the suffix after
the first closing bracket, provided no newline intervenes (the regex dot
does not match newline); none if there is no such closing bracket. -/
def findClose : List Char → Option (List Char)
  | [] => none
  | c :: cs => if c = ']' then some cs else if c = '\n' then none else findClose cs

theorem findClose_le : ∀ (cs r : List Char), findClose cs = some r → r.length ≤ cs.length := by
  intro cs
  induction cs with
  | nil => intro r h; simp [findClose] at h
  | cons c t ih =>
      intro r h
      by_cases hc : c = ']'
      · simp [findClose, hc] at h
        simp [← h]
      · by_cases hn : c = '\n'
        · simp [findClose, hc, hn] at h
        · simp [findClose, hc, hn] at h
          have := ih r h
          simp
          omega

/-- One left-to-right re.sub pass deleting footnotes, commas and em-dashes
(etl_project_gdp.py lines 74-76). -/
def stripAux : List Char → List Char
  | [] => []
  | c :: cs =>
    if c = '[' then
      match h : findClose cs with
      | some rest => stripAux rest
      | none => c :: stripAux cs
    else if c = ',' || c = '—' then stripAux cs
    else c :: stripAux cs
termination_by l => l.length
decreasing_by
  · rename_i rest h
    have := findClose_le _ _ h
    simp only [List.length_cons]
    omega
  · simp only [List.length_cons]
    omega
  · simp only [List.length_cons]
    omega
  · simp only [List.length_cons]
    omega

/-- Noise-pattern removal on a cell, modelling
Series.replace(to_replace=footnote-or-comma-or-emdash, value=empty, regex=True). -/
def stripNoise (s : String) : String := ⟨stripAux s.data⟩

/-! ## Float parsing

Model of the per-cell parse performed by pd.to_numeric(errors=coerce)
(etl_project_gdp.py line 79, banks_project.py lines 47 and 109) on a string
cell: surrounding whitespace is ignored; an optional sign is followed by a
decimal mantissa (digits, optionally with one dot, at least one digit
overall) and an optional exponent part.  IEEE special spellings (inf, nan)
and underscore separators are not modelled; no input of these scripts
produces them.  The numeric value is an exact rational standing for the
double the library would produce. -/

/-- Value of a digit string, most significant first. -/
def digitsVal (l : List Char) : ℕ := l.foldl (fun n c => 10 * n + (c.toNat - 48)) 0

/-- Ten to a natural power, by structural recursion so that it evaluates. -/
def tenPow : ℕ → ℚ
  | 0 => 1
  | n + 1 => 10 * tenPow n

/-- Split off the longest leading run of decimal digits. -/
def spanDigits : List Char → List Char × List Char
  | [] => ([], [])
  | c :: t =>
    if c.isDigit then
      let p := spanDigits t
      (c :: p.1, p.2)
    else ([], c :: t)

/-- Parse an unsigned decimal mantissa from the front of the input; return
its value and the unconsumed suffix.  Fails when no digit is present. -/
def parseMantissa (l : List Char) : Option (ℚ × List Char) :=
  let p := spanDigits l
  match p.2 with
  | '.' :: r2 =>
      let q := spanDigits r2
      if p.1.isEmpty && q.1.isEmpty then none
      else some ((digitsVal p.1 : ℚ) + (digitsVal q.1 : ℚ) / tenPow q.1.length, q.2)
  | _ => if p.1.isEmpty then none else some ((digitsVal p.1 : ℚ), p.2)

/-- Parse a non-empty all-digit exponent magnitude. -/
def expDigits (l : List Char) : Option ℤ :=
  if l.isEmpty then none
  else if l.all (·.isDigit) then some (digitsVal l) else none

/-- Parse an exponent magnitude with optional sign. -/
def parseExpSign : List Char → Option ℤ
  | '+' :: r => expDigits r
  | '-' :: r => (expDigits r).map Neg.neg
  | l => expDigits l

/-- Parse the text after the mantissa: empty means exponent zero, otherwise
an e or E followed by a signed digit string; anything else is a parse error. -/
def parseExpPart : List Char → Option ℤ
  | [] => some 0
  | 'e' :: r => parseExpSign r
  | 'E' :: r => parseExpSign r
  | _ => none

/-- Scale a mantissa by ten to a signed exponent. -/
def applyExp (m : ℚ) (e : ℤ) : ℚ :=
  if 0 ≤ e then m * tenPow e.toNat else m / tenPow (-e).toNat

/-- Unsigned float text: mantissa followed by optional exponent. -/
def parseCore (l : List Char) : Option ℚ :=
  match parseMantissa l with
  | none => none
  | some (m, rest) =>
      match parseExpPart rest with
      | none => none
      | some e => some (applyExp m e)

/-- Optional leading sign. -/
def parseSigned : List Char → Option ℚ
  | '+' :: r => parseCore r
  | '-' :: r => (parseCore r).map Neg.neg
  | l => parseCore l

/-- Model of float parsing as performed by pd.to_numeric on one string cell:
none is the coerced NaN outcome, some q a valid float. -/
def parseFloat? (s : String) : Option ℚ := parseSigned (pyStrip s).data

/-! ## Cell values -/

/-- A DataFrame cell: text, a numeric value, or the NaN/missing marker
(pandas NaN, the result of a failed coercion or an empty source cell). -/
inductive Val where
  | str : String → Val
  | num : ℚ → Val
  | nan : Val
deriving DecidableEq, Repr

/-- True exactly on the NaN/missing marker (pandas isna). -/
def Val.isMissing : Val → Bool
  | .nan => true
  | _ => false

/-! ## Rounding

Series.round(2) rounds each value to two decimals with the IEEE
round-half-to-even tie rule used by numpy. -/

/-- Round to the nearest integer, ties to even. -/
def roundHalfEven (x : ℚ) : ℤ :=
  if x - ⌊x⌋ < 1/2 then ⌊x⌋
  else if (1:ℚ)/2 < x - ⌊x⌋ then ⌊x⌋ + 1
  else if ⌊x⌋ % 2 = 0 then ⌊x⌋ else ⌊x⌋ + 1

/-- Round to two decimal places, ties to even: model of Series.round(2). -/
def round2 (x : ℚ) : ℚ := (roundHalfEven (100 * x) : ℚ) / 100

/-! ## GDP transform stage (etl_project_gdp.py, transform_data)

The stage works on the table projected to (Country, GDP text) pairs, the
result of df.iloc[:, [0, 2]] with columns renamed (lines 67-68). -/

/-- The exclusion test of line 71 exactly as the code has it:
Country.str.lower().isin([world, em-dash]) — lower-cased, untrimmed. -/
def gdpExcluded (k : String) : Bool := ["world", "—"].contains (pyLower k)

/-- Line 71: drop rows whose lower-cased Country is in the exclusion list.
The code lowers the value but does not trim it. -/
def gdpKeyFilter (rows : List (String × String)) : List (String × String) :=
  rows.filter (fun r => !(gdpExcluded r.1))

/-- Lines 74-79 on one cell: strip noise patterns, then coerce to float,
with parse failure becoming NaN rather than an error. -/
def cleanCell (s : String) : Val :=
  match parseFloat? (stripNoise s) with
  | some q => .num q
  | none => .nan

/-- Lines 74-79 on the GDP column of the whole table. -/
def gdpClean (rows : List (String × String)) : List (String × Val) :=
  rows.map (fun r => (r.1, cleanCell r.2))

/-- Line 82: dropna on the GDP column — drop rows whose value is NaN. -/
def gdpDropna (rows : List (String × Val)) : List (String × Val) :=
  rows.filter (fun r => !(r.2.isMissing))

/-- Line 85 on one cell: divide by 1000 and round to two decimals.
NaN propagates through arithmetic and rounding (never reached after dropna). -/
def valDivRound (c : Val) : Val :=
  match c with
  | .num q => .num (round2 (q / 1000))
  | _ => .nan

/-- Line 85 on the whole table: the derived GDP_USD_billion column, keeping
Country (line 88 keeps exactly Country and the derived column). -/
def gdpDerive (rows : List (String × Val)) : List (String × Val) :=
  rows.map (fun r => (r.1, valDivRound r.2))

/-- Lines 71-82: the full row-dropping part of the transform — key-exclusion
filter, then per-cell cleaning, then dropna. -/
def gdpRowStage (rows : List (String × String)) : List (String × Val) :=
  gdpDropna (gdpClean (gdpKeyFilter rows))

/-- transform_data, lines 67-88, on the projected table. -/
def gdpTransform (rows : List (String × String)) : List (String × Val) :=
  gdpDerive (gdpRowStage rows)

/-! ## Parsed HTML documents and table locators

A parsed document is modelled as its elements in document order.  Only the
features the two locators inspect are kept: the tag and id of headings, and
the class list, caption text and extracted rows of tables.  The rows of a
table element stand for the DataFrame pd.read_html produces from it. -/

/-- An element of the parsed document, in document order. -/
inductive Elem where
  | heading (tag : String) (hid : String)
  | table (classes : List String) (caption : Option String) (rows : List (List String))
  | node (tag : String)
deriving DecidableEq, Repr

/-- Test for the anchor: soup.find of an h2 carrying the given id
(banks_project.py line 31). -/
def isAnchorHeading (tid : String) : Elem → Bool
  | .heading tag hid => tag == "h2" && hid == tid
  | _ => false

/-- Test for the marker class: a table element whose class list carries
wikitable (find with class argument wikitable). -/
def isWikitable : Elem → Bool
  | .table classes _ _ => classes.contains "wikitable"
  | _ => false

/-- The tabular data of a table element (junk value on other elements,
never used there). -/
def Elem.tableRows : Elem → List (List String)
  | .table _ _ rows => rows
  | _ => []

/-- Scan for the first element satisfying p; return it with the elements
following it in document order.  This is the traversal shared by soup.find
(from the document start) and tag.find_next (from the elements after a tag). -/
def findSplit {α : Type} (p : α → Bool) : List α → Option (α × List α)
  | [] => none
  | e :: es => if p e then some (e, es) else findSplit p es

/-- Error text of banks_project.py line 33 (quotes around the id omitted). -/
def headingNotFound : String := "Heading with ID By_market_capitalization not found"

/-- Error text of banks_project.py line 38. -/
def tableNotFound : String := "Target table not found after heading"

/-- Anchor-then-next table locator, banks_project.py lines 30-41: find the
first h2 with the given id, then the first wikitable-class table after it in
document order, and return that table as extracted rows. -/
def banksLocate (doc : List Elem) (tid : String) : Except String (List (List String)) :=
  match findSplit (isAnchorHeading tid) doc with
  | none => .error headingNotFound
  | some (_, rest) =>
    match findSplit isWikitable rest with
    | none => .error tableNotFound
    | some (t, _) => .ok t.tableRows

/-- Caption test of etl_project_gdp.py line 50: the table has a caption and
the needle occurs in its text (case-sensitive substring); tables without a
caption never match. -/
def captionMatches (needle : String) : Elem → Bool
  | .table _ (some c) _ => strContains c needle
  | _ => false

/-- Error text of etl_project_gdp.py line 55. -/
def captionErr : String := "Could not find the correct GDP table by caption."

/-- The caption substring the GDP script searches for (line 50). -/
def gdpCaption : String := "GDP (USD million) by country"

/-- Caption-match table locator, etl_project_gdp.py lines 44-55: among the
wikitable-class tables in document order, return the first whose caption
contains the needle; raise if none does. -/
def gdpLocate (doc : List Elem) (needle : String) : Except String (List (List String)) :=
  match (doc.filter isWikitable).find? (captionMatches needle) with
  | some t => .ok t.tableRows
  | none => .error captionErr

/-! ## DataFrames for the banks pipeline

banks_project.py manipulates one DataFrame by named columns, so the model
keeps the column-name schema explicit: a column list and one cell list per
row.  pandas keeps tables rectangular; DF.WF states that. -/

/-- A DataFrame: named columns and rows of cells. -/
structure DF where
  cols : List String
  rows : List (List Val)
deriving DecidableEq, Repr

/-- Rectangularity: every row has one cell per column. -/
def DF.WF (df : DF) : Prop := ∀ r ∈ df.rows, r.length = df.cols.length

/-- Position of a column name (first occurrence; the scripts keep column
names unique). -/
def colIdx? (cols : List String) (c : String) : Option ℕ :=
  match cols with
  | [] => none
  | a :: t => if a = c then some 0 else (colIdx? t c).map (· + 1)

/-- Read a column by name: df[c] as a cell list, none when the name is
absent (pandas KeyError). -/
def DF.getCol? (df : DF) (c : String) : Option (List Val) :=
  (colIdx? df.cols c).map (fun j => df.rows.map (fun r => r.getD j .nan))

/-- Column assignment df[c] = vs: overwrite the column in place when the
name exists, otherwise append a new column at the right edge — pandas
semantics of setting a column.  The value list is index-aligned with the
rows (the scripts always assign a series derived from the same frame). -/
def DF.setCol (df : DF) (c : String) (vs : List Val) : DF :=
  match colIdx? df.cols c with
  | some j => ⟨df.cols, (df.rows.zip vs).map (fun rv => rv.1.set j rv.2)⟩
  | none => ⟨df.cols ++ [c], (df.rows.zip vs).map (fun rv => rv.1 ++ [rv.2])⟩

/-- df[c] with the KeyError raise made explicit. -/
def getColE (df : DF) (c : String) : Except String (List Val) :=
  match df.getCol? c with
  | some vs => .ok vs
  | none => .error ("KeyError: " ++ c)

/-- One cell of Series * rate followed by round(2): numeric cells are
scaled and rounded, NaN propagates.  Only reached on columns with no text
cells (seriesScale checks first, modelling the TypeError a text cell would
raise). -/
def valScale (r : ℚ) : Val → Val
  | .num q => .num (round2 (q * r))
  | _ => .nan

/-- A cell that float arithmetic accepts: numeric or NaN, not text. -/
def isNumericCell : Val → Bool
  | .str _ => false
  | _ => true

/-- (df[col] * rate).round(2), banks_project.py lines 61-63: elementwise on
the whole column; a text cell anywhere raises TypeError. -/
def seriesScale (r : ℚ) (vs : List Val) : Except String (List Val) :=
  if vs.all isNumericCell then .ok (vs.map (valScale r))
  else .error "TypeError: cannot multiply non-numeric column"

/-- Column names fixed by the banks script. -/
def usdCol : String := "MC_USD_Billion"

/-- Derived column name, GBP. -/
def gbpCol : String := "MC_GBP_Billion"

/-- Derived column name, EUR. -/
def eurCol : String := "MC_EUR_Billion"

/-- Derived column name, INR. -/
def inrCol : String := "MC_INR_Billion"

/-- transform, banks_project.py lines 56-66: three column assignments, each
reading the USD column of the current frame, scaling by the exchange rate
and rounding to two decimals.  The exchange rates are passed as values; the
CSV they come from is an external input (line 58-59). -/
def banksTransform (g e i : ℚ) (df : DF) : Except String DF :=
  match getColE df usdCol with
  | .error m => .error m
  | .ok b1 =>
    match seriesScale g b1 with
    | .error m => .error m
    | .ok v1 =>
      let df1 := df.setCol gbpCol v1
      match getColE df1 usdCol with
      | .error m => .error m
      | .ok b2 =>
        match seriesScale e b2 with
        | .error m => .error m
        | .ok v2 =>
          let df2 := df1.setCol eurCol v2
          match getColE df2 usdCol with
          | .error m => .error m
          | .ok b3 =>
            match seriesScale i b3 with
            | .error m => .error m
            | .ok v3 => .ok (df2.setCol inrCol v3)

/-- The caller-visible state of the argument after transform(df, ...)
returns or raises: Python passes the frame by reference and the column
assignments of lines 61-63 mutate it, so after a successful call the
caller's frame is exactly the returned frame, and after a raise it is the
frame as mutated so far. -/
def transformCallerAfter (g e i : ℚ) (df : DF) : DF :=
  match getColE df usdCol with
  | .error _ => df
  | .ok b1 =>
    match seriesScale g b1 with
    | .error _ => df
    | .ok v1 =>
      let df1 := df.setCol gbpCol v1
      match getColE df1 usdCol with
      | .error _ => df1
      | .ok b2 =>
        match seriesScale e b2 with
        | .error _ => df1
        | .ok v2 =>
          let df2 := df1.setCol eurCol v2
          match getColE df2 usdCol with
          | .error _ => df2
          | .ok b3 =>
            match seriesScale i b3 with
            | .error _ => df2
            | .ok v3 => df2.setCol inrCol v3

/-! ## Banks extract tail (banks_project.py lines 44-47 and 109)

After read_html, the frame is projected to (Name, market-cap) pairs.  A raw
market-cap cell is text, a number (read_html infers numeric dtypes), or NaN
(an empty source cell).  Line 46 drops NaN rows FIRST, line 47 coerces to
numeric AFTERWARDS — this ordering is what claim C1 is about. -/

/-- pd.to_numeric(errors=coerce) on one cell: text is parsed (failure
becomes NaN), numbers and NaN pass through. -/
def toNumeric (v : Val) : Val :=
  match v with
  | .str s =>
      match parseFloat? s with
      | some q => .num q
      | none => .nan
  | .num q => .num q
  | .nan => .nan

/-- Line 46: df.dropna(subset=[MC_USD_Billion]) — keep rows whose
market-cap cell is not NaN. -/
def banksRowFilter (rows : List (String × Val)) : List (String × Val) :=
  rows.filter (fun r => !(r.2.isMissing))

/-- Lines 46-47 in source order: drop NaN rows, then coerce the market-cap
column to numeric. -/
def banksExtractClean (rows : List (String × Val)) : List (String × Val) :=
  (banksRowFilter rows).map (fun r => (r.1, toNumeric r.2))

/-- Assemble the extracted frame with the schema of line 45. -/
def mkBanksDF (rows : List (String × Val)) : DF :=
  ⟨["Name", usdCol], rows.map (fun r => [.str r.1, r.2])⟩

/-- Line 109: one more pd.to_numeric(errors=coerce) over the market-cap
column, assigned back in place. -/
def banksRecoerce (df : DF) : DF :=
  match df.getCol? usdCol with
  | some vs => df.setCol usdCol (vs.map toNumeric)
  | none => df

/-- The frame handed to load_to_csv and load_to_db (lines 108-115): extract
tail, line-109 recoercion, then transform. -/
def banksSinkTable (raw : List (String × Val)) (g e i : ℚ) : Except String DF :=
  banksTransform g e i (banksRecoerce (mkBanksDF (banksExtractClean raw)))

/-! ## Relational store

The SQLite database is modelled as an association list from table name to
stored rows; lookup takes the first binding. -/

/-- The store: table name to rows. -/
abbrev DbStore := List (String × List (List Val))

/-- Rows of a named table, none when absent. -/
def dbLookup (s : DbStore) (n : String) : Option (List (List Val)) :=
  match s with
  | [] => none
  | (k, rs) :: t => if k = n then some rs else dbLookup t n

/-- df.to_sql(if_exists=replace), banks_project.py line 81: the named table
ends up holding exactly the given rows. -/
def dbReplace (s : DbStore) (n : String) (rows : List (List Val)) : DbStore :=
  match s with
  | [] => [(n, rows)]
  | (k, rs) :: t => if k = n then (n, rows) :: t else (k, rs) :: dbReplace t n rows

/-- DROP TABLE IF EXISTS, etl_project_gdp.py line 121. -/
def dbDrop (s : DbStore) (n : String) : DbStore := s.filter (fun p => !(p.1 == n))

/-- CREATE TABLE, etl_project_gdp.py lines 122-127: a fresh empty table. -/
def dbCreate (s : DbStore) (n : String) : DbStore := s ++ [(n, [])]

/-- df.to_sql(if_exists=append), etl_project_gdp.py line 130: append the
rows to the named table, creating it when absent. -/
def dbAppend (s : DbStore) (n : String) (rows : List (List Val)) : DbStore :=
  match s with
  | [] => [(n, rows)]
  | (k, rs) :: t => if k = n then (k, rs ++ rows) :: t else (k, rs) :: dbAppend t n rows

/-- The fixed destination table name of the GDP script. -/
def gdpTableName : String := "Countries_by_GDP"

/-- load_to_database, etl_project_gdp.py lines 105-133: drop, recreate with
the declared schema, append all rows. -/
def gdpLoadToDb (s : DbStore) (rows : List (List Val)) : DbStore :=
  dbAppend (dbCreate (dbDrop s gdpTableName) gdpTableName) gdpTableName rows

/-! ## Whole-run models with the log side-channel

The log file becomes the list of messages written, in order.  Network fetch
is a parameter: the banks script never checks the response, the GDP script
fails on a non-200 status.  Exchange rates reach the banks transform as
values (their CSV is an external input). -/

/-- The heading id the banks extract anchors on (line 31). -/
def banksAnchor : String := "By_market_capitalization"

/-- Log message of banks_project.py line 107. -/
def banksPrelimMsg : String := "Preliminaries complete. Initiating ETL process"

/-- Model of a read_html cell: empty source text becomes NaN, numeric text
becomes a number (dtype inference), anything else stays text. -/
def readCellVal (s : String) : Val :=
  if s = "" then .nan
  else
    match parseFloat? s with
    | some q => .num q
    | none => .str s

/-- df.iloc[:, [0, 2]] with columns renamed (banks_project.py lines 44-45):
keep the name and the market-cap cell of each extracted row. -/
def banksProject (rws : List (List String)) : List (String × Val) :=
  rws.map (fun r => (r.getD 0 "", readCellVal (r.getD 2 "")))

/-- The banks module-level pipeline, lines 107-123: log accumulated so far
paired with the outcome.  No handler anywhere: an extract or transform
exception propagates out of the process with the log as already written. -/
def banksRun (doc : List Elem) (g e i : ℚ) : List String × Except String Unit :=
  let lg0 := [banksPrelimMsg]
  match banksLocate doc banksAnchor with
  | .error msg => (lg0, .error msg)
  | .ok rws =>
      let df0 := banksRecoerce (mkBanksDF (banksExtractClean (banksProject rws)))
      let lg1 := lg0 ++ ["Data extraction complete. Initiating Transformation process"]
      match banksTransform g e i df0 with
      | .error msg => (lg1, .error msg)
      | .ok _ =>
          (lg1 ++ ["Data transformation complete. Initiating Loading process",
                   "Data saved to CSV file",
                   "SQL Connection initiated",
                   "Data loaded to Database as a table, Executing queries",
                   "Process Complete", "Process Complete", "Process Complete",
                   "Server Connection closed"], .ok ())

/-- Error text of etl_project_gdp.py line 42. -/
def gdpFetchErr : String := "Failed to fetch webpage."

/-- extract_data, etl_project_gdp.py lines 29-55: non-200 status raises,
otherwise the caption locator runs. -/
def gdpExtractE (statusOk : Bool) (doc : List Elem) : Except String (List (List String)) :=
  if statusOk then gdpLocate doc gdpCaption else .error gdpFetchErr

/-- df.iloc[:, [0, 2]] with columns renamed (etl_project_gdp.py lines
67-68): keep the country and the GDP text of each extracted row. -/
def gdpProject (rws : List (List String)) : List (String × String) :=
  rws.map (fun r => (r.getD 0 "", r.getD 2 ""))

/-- The failure log entry of etl_project_gdp.py line 176. -/
def gdpFailMsg (e : String) : String := "ETL process failed: " ++ e

/-- main, etl_project_gdp.py lines 156-176: the whole run sits in one
try/except whose handler logs the error text; the function always returns
(graceful exit), so the model is the log as a total function.  The
transformation-complete entry of line 90 embeds a data sample; the model
keeps its fixed prefix. -/
def gdpRun (statusOk : Bool) (doc : List Elem) : List String :=
  let lg0 := ["ETL process started.", "Starting data extraction..."]
  match gdpExtractE statusOk doc with
  | .error e => lg0 ++ [gdpFailMsg e]
  | .ok rws =>
      let _ := gdpTransform (gdpProject rws)
      lg0 ++ ["Found the correct GDP table using caption.",
              "Starting data transformation...",
              "Transformation complete. Sample data:",
              "Saving data to CSV file: Countries_by_GDP.csv",
              "Saving data to database: World_Economies.db",
              "Data loaded into database.",
              "Running query for countries with GDP > 100 billion USD...",
              "ETL process completed successfully."]

/-! ## Spec-side definition for claim C3 (refinement comparison)

Claim C3 says the row filter drops rows whose key column LOWER-CASED AND
TRIMMED value is in the exclusion set.  The code (etl_project_gdp.py line
71) lowers but does not trim.  specRowFilter renders the claim wording to
compare against the code. -/

/-- Modelled from the spec: the exclusion test as claim C3 words it — the
key lower-cased and trimmed, then looked up in the exclusion set. -/
def specKeyExcluded (k : String) : Bool := ["world", "—"].contains (pyLower (pyStrip k))

/-- Modelled from the spec: the row filter as claim C3 words it, acting on
the cleaned table — drop exactly rows with excluded (trimmed) key or
missing numeric value, keeping order. -/
def specRowFilter (rows : List (String × Val)) : List (String × Val) :=
  rows.filter (fun r => !(specKeyExcluded r.1) && !(r.2.isMissing))

theorem findSplit_eq_none_iff {α : Type} (p : α → Bool) (l : List α) :
    findSplit p l = none ↔ ∀ e ∈ l, p e = false := by
  induction l with
  | nil => simp [findSplit]
  | cons a t ih =>
      by_cases h : p a
      · simp [findSplit, h]
      · simp [findSplit, h, ih]

theorem findSplit_eq_some_iff {α : Type} (p : α → Bool) (l : List α) (e : α) (rest : List α) :
    findSplit p l = some (e, rest) ↔
      ∃ pre, l = pre ++ e :: rest ∧ p e = true ∧ ∀ x ∈ pre, p x = false := by
  induction l with
  | nil =>
      simp [findSplit]
  | cons a t ih =>
      by_cases h : p a
      · simp [findSplit, h]
        constructor
        · rintro ⟨rfl, rfl⟩
          exact ⟨[], by simp, h, by simp⟩
        · rintro ⟨pre, hl, hpe, hpre⟩
          cases pre with
          | nil =>
              simp at hl
              exact ⟨hl.1, hl.2⟩
          | cons b pb =>
              simp at hl
              have : p b = false := hpre b (by simp)
              rw [← hl.1] at this
              rw [h] at this
              exact absurd this (by simp)
      · simp [findSplit, h, ih]
        constructor
        · rintro ⟨pre, rfl, hpe, hpre⟩
          exact ⟨a :: pre, by simp, hpe, by
            intro x hx
            rcases List.mem_cons.mp hx with rfl | hx
            · simpa using h
            · exact hpre x hx⟩
        · rintro ⟨pre, hl, hpe, hpre⟩
          cases pre with
          | nil =>
              simp at hl
              rw [hl.1] at h
              exact absurd hpe h
          | cons b pb =>
              simp at hl
              exact ⟨pb, hl.2, hpe, fun x hx => hpre x (by simp [hx])⟩

theorem isPrefixOf_iff_parts (n l : List Char) :
    n.isPrefixOf l = true ↔ ∃ post, l = n ++ post := by
  induction n generalizing l with
  | nil => simp [List.isPrefixOf]
  | cons a na ih =>
      cases l with
      | nil => simp [List.isPrefixOf]
      | cons b lb =>
          simp [List.isPrefixOf, ih]
          exact fun _ _ => eq_comm

theorem listContains_iff_parts (hay needle : List Char) :
    listContains hay needle = true ↔ ∃ pre post, hay = pre ++ needle ++ post := by
  induction hay with
  | nil =>
      simp [listContains, List.isEmpty_iff]
  | cons c t ih =>
      simp only [listContains, Bool.or_eq_true, isPrefixOf_iff_parts, ih]
      constructor
      · rintro (⟨post, hp⟩ | ⟨pre, post, rfl⟩)
        · exact ⟨[], post, by simpa using hp⟩
        · exact ⟨c :: pre, post, by simp⟩
      · rintro ⟨pre, post, hh⟩
        cases pre with
        | nil =>
            left
            exact ⟨post, by simpa using hh⟩
        | cons b pb =>
            right
            simp at hh
            exact ⟨pb, post, by rw [List.append_assoc]; exact hh.2⟩

/-! ## Claim C4: cleaning never raises on malformed cells -/

/-- C4: for every cell, after stripping the noise patterns, a remainder
that fails to parse as a float (in particular an empty remainder) is mapped
to the missing marker rather than raising; a parsable remainder becomes its
float value; and cleaning a whole column is total — it touches every cell
and keeps the column length. -/
theorem clean_never_raises :
    (∀ s, parseFloat? (stripNoise s) = none → cleanCell s = Val.nan)
    ∧ (∀ s q, parseFloat? (stripNoise s) = some q → cleanCell s = Val.num q)
    ∧ parseFloat? "" = none
    ∧ (∀ rows : List (String × String), (gdpClean rows).length = rows.length) := by
  refine ⟨?_, ?_, ?_, ?_⟩
  · intro s h
    simp [cleanCell, h]
  · intro s q h
    simp [cleanCell, h]
  · simp [parseFloat?, pyStrip, parseSigned, parseCore, parseMantissa, spanDigits]
  · intro rows
    simp [gdpClean]

/-- Witness for C4 at concrete cells: a malformed remainder goes to
missing, an em-dash cell strips to empty and goes to missing, and a noisy
numeric cell parses. -/
theorem clean_never_raises_witness :
    cleanCell "12abc" = Val.nan ∧ cleanCell "—" = Val.nan := by
  constructor
  · apply clean_never_raises.1
    simp [parseFloat?, stripNoise, stripAux, findClose, pyStrip, parseSigned, parseCore,
      parseMantissa, spanDigits, parseExpPart]
  · apply clean_never_raises.1
    simp [parseFloat?, stripNoise, stripAux, findClose, pyStrip, parseSigned, parseCore,
      parseMantissa, spanDigits, parseExpPart]

/-! ## Claim C3: the row filter -/

/-- C3 counterexample: a key that is in the exclusion set only after
trimming.  The claim says the row is dropped (lower-cased TRIMMED value in
the exclusion set); the code keeps it, because line 71 lowers but does not
trim. -/
theorem rowfilter_trim_counterexample :
    gdpRowStage [(" world ", "5")] = [(" world ", Val.num 5)]
    ∧ specRowFilter (gdpClean [(" world ", "5")]) = []
    ∧ gdpRowStage [(" world ", "5")]
        ≠ specRowFilter (gdpClean [(" world ", "5")]) := by
  have h5 : cleanCell "5" = Val.num 5 := by
    simp [cleanCell, stripNoise, stripAux, findClose, parseFloat?, pyStrip, parseSigned,
      parseCore, parseMantissa, spanDigits, parseExpPart, digitsVal, applyExp, tenPow]
  have hex : gdpExcluded " world " = false := by
    simp [gdpExcluded, pyLower]
  have hspec : specKeyExcluded " world " = true := by
    simp [specKeyExcluded, pyLower, pyStrip]
  refine ⟨?_, ?_, ?_⟩
  · simp [gdpRowStage, gdpDropna, gdpClean, gdpKeyFilter, hex, h5, Val.isMissing]
  · simp [specRowFilter, gdpClean, hspec]
  · simp [gdpRowStage, gdpDropna, gdpClean, gdpKeyFilter, hex, h5, Val.isMissing,
      specRowFilter, hspec]

/-- C3 as amended: on the cleaned table, the row filter keeps exactly the
rows whose LOWER-CASED (untrimmed) key is outside the exclusion set and
whose numeric value is present — a stable filter, so every output row is a
row of the cleaned input and relative order is preserved (Sublist). -/
theorem rowfilter_characterization (rows : List (String × String)) :
    gdpRowStage rows
      = (gdpClean rows).filter (fun r => !(gdpExcluded r.1) && !(r.2.isMissing))
    ∧ (gdpRowStage rows).Sublist (gdpClean rows) := by
  have h : gdpRowStage rows
      = (gdpClean rows).filter (fun r => !(gdpExcluded r.1) && !(r.2.isMissing)) := by
    unfold gdpRowStage gdpDropna gdpClean gdpKeyFilter
    rw [List.filter_map, List.filter_map, List.filter_filter]
    congr 1
    apply List.filter_congr
    intro a _
    simp [Function.comp]
    rw [Bool.and_comm]
  exact ⟨h, h ▸ List.filter_sublist _⟩

/-! ## Claim C8: replace-whole-table loads do not accumulate -/

theorem dbLookup_dbReplace (s : DbStore) (n : String) (rows : List (List Val)) :
    dbLookup (dbReplace s n rows) n = some rows := by
  induction s with
  | nil => simp [dbReplace, dbLookup]
  | cons p t ih =>
      by_cases h : p.1 = n
      · simp [dbReplace, h, dbLookup]
      · simp [dbReplace, h, dbLookup, ih]

theorem dbLookup_append_last (s : DbStore) (n : String) (rows : List (List Val))
    (h : ∀ p ∈ s, p.1 ≠ n) : dbLookup (s ++ [(n, rows)]) n = some rows := by
  induction s with
  | nil => simp [dbLookup]
  | cons p t ih =>
      have hp : p.1 ≠ n := h p (by simp)
      simp only [List.cons_append, dbLookup, if_neg hp]
      exact ih (fun q hq => h q (by simp [hq]))

theorem dbAppend_fresh (s : DbStore) (n : String) (rows : List (List Val))
    (h : ∀ p ∈ s, p.1 ≠ n) : dbAppend (s ++ [(n, [])]) n rows = s ++ [(n, rows)] := by
  induction s with
  | nil => simp [dbAppend]
  | cons p t ih =>
      have hp : p.1 ≠ n := h p (by simp)
      simp only [List.cons_append, dbAppend, if_neg hp, List.append_eq]
      rw [ih (fun q hq => h q (by simp [hq]))]

theorem dbDrop_clears (s : DbStore) (n : String) : ∀ p ∈ dbDrop s n, p.1 ≠ n := by
  intro p hp
  have := List.of_mem_filter hp
  simpa using this

/-- C8: loading twice in replace-whole-table mode — banks to_sql replace,
and GDP drop-create-append — leaves exactly the second table queryable;
nothing from the first load remains. -/
theorem replace_mode_no_accumulation (s : DbStore) (n : String)
    (t1 t2 : List (List Val)) (hne : t1.length ≠ t2.length) :
    dbLookup (dbReplace (dbReplace s n t1) n t2) n = some t2
    ∧ dbLookup (gdpLoadToDb (gdpLoadToDb s t1) t2) gdpTableName = some t2 := by
  constructor
  · exact dbLookup_dbReplace _ _ _
  · unfold gdpLoadToDb dbCreate
    rw [dbAppend_fresh _ _ _ (dbDrop_clears _ _)]
    rw [dbAppend_fresh _ _ _ (dbDrop_clears _ _)]
    exact dbLookup_append_last _ _ _ (dbDrop_clears _ _)

/-- Witness for C8: two concrete loads with one and two rows. -/
theorem replace_mode_no_accumulation_witness :
    dbLookup (dbReplace (dbReplace [] "Largest_banks" [[Val.num 1]])
        "Largest_banks" [[Val.num 2], [Val.num 3]]) "Largest_banks"
      = some [[Val.num 2], [Val.num 3]]
    ∧ dbLookup (gdpLoadToDb (gdpLoadToDb [] [[Val.num 1]])
        [[Val.num 2], [Val.num 3]]) gdpTableName
      = some [[Val.num 2], [Val.num 3]] :=
  replace_mode_no_accumulation [] "Largest_banks" [[Val.num 1]]
    [[Val.num 2], [Val.num 3]] (by simp)

/-! ## Claim C6: the caption-match locator -/

/-- C6: the caption-match locator succeeds exactly on the first
wikitable-class table, in document order, whose caption contains the needle
(case-sensitive substring, spelled out as a split of the caption text), and
returns that table as rows; it raises exactly when no marker-class table
has a matching caption; tables without a caption never match. -/
theorem caption_locator_characterization (doc : List Elem) (needle : String) :
    (∀ rws, gdpLocate doc needle = .ok rws ↔
      ∃ pre t post, doc.filter isWikitable = pre ++ t :: post
        ∧ captionMatches needle t = true
        ∧ (∀ e ∈ pre, captionMatches needle e = false)
        ∧ rws = t.tableRows)
    ∧ (gdpLocate doc needle = .error captionErr ↔
        ∀ t ∈ doc.filter isWikitable, captionMatches needle t = false)
    ∧ (∀ cls cap rws2,
        captionMatches needle (Elem.table cls (some cap) rws2) = true
          ↔ ∃ pre post, cap.data = pre ++ needle.data ++ post)
    ∧ (∀ cls rws2, captionMatches needle (Elem.table cls none rws2) = false) := by
  refine ⟨?_, ?_, ?_, ?_⟩
  · intro rws
    constructor
    · intro h
      unfold gdpLocate at h
      cases hfind : (doc.filter isWikitable).find? (captionMatches needle) with
      | none => rw [hfind] at h; exact absurd h (by simp)
      | some t =>
          rw [hfind] at h
          simp at h
          obtain ⟨hp, as, bs, heq, hclean⟩ := List.find?_eq_some.mp hfind
          exact ⟨as, t, bs, heq, hp, fun e he => by simpa using hclean e he, h.symm⟩
    · rintro ⟨pre, t, post, heq, hm, hclean, rfl⟩
      have hfind : (doc.filter isWikitable).find? (captionMatches needle) = some t :=
        List.find?_eq_some.mpr ⟨hm, pre, post, heq, fun a ha => by simp [hclean a ha]⟩
      unfold gdpLocate
      rw [hfind]
  · constructor
    · intro h
      unfold gdpLocate at h
      cases hfind : (doc.filter isWikitable).find? (captionMatches needle) with
      | none =>
          intro t ht
          simpa using List.find?_eq_none.mp hfind t ht
      | some t => rw [hfind] at h; exact absurd h (by simp)
    · intro h
      unfold gdpLocate
      rw [List.find?_eq_none.mpr (fun x hx => by simp [h x hx])]
  · intro cls cap rws2
    simp [captionMatches, strContains, listContains_iff_parts]
  · intro cls rws2
    simp [captionMatches]

/-! ## Claim C5: the anchor-then-next locator -/

theorem banksLocate_no_heading (doc : List Elem) (tid : String)
    (h : findSplit (isAnchorHeading tid) doc = none) :
    banksLocate doc tid = .error headingNotFound := by
  simp [banksLocate, h]

theorem banksLocate_no_table (doc : List Elem) (tid : String) (a : Elem) (rest : List Elem)
    (h1 : findSplit (isAnchorHeading tid) doc = some (a, rest))
    (h2 : findSplit isWikitable rest = none) :
    banksLocate doc tid = .error tableNotFound := by
  simp [banksLocate, h1, h2]

theorem banksLocate_found (doc : List Elem) (tid : String) (a t : Elem)
    (rest post : List Elem)
    (h1 : findSplit (isAnchorHeading tid) doc = some (a, rest))
    (h2 : findSplit isWikitable rest = some (t, post)) :
    banksLocate doc tid = .ok t.tableRows := by
  simp [banksLocate, h1, h2]

/-- C5: the anchor-then-next locator succeeds exactly when the document
splits as (no anchor) ++ anchor ++ (no marker table) ++ marker table ++
rest, and then returns the rows of that nearest marker table after the
first anchor; it reports the heading-missing error exactly when no h2 with
the given id exists, and the table-missing error exactly when the first
anchor exists but no wikitable-class table follows it. -/
theorem anchor_locator_characterization (doc : List Elem) (tid : String) :
    (∀ rws, banksLocate doc tid = .ok rws ↔
      ∃ pre a mid t post, doc = pre ++ a :: (mid ++ t :: post)
        ∧ isAnchorHeading tid a = true
        ∧ (∀ e ∈ pre, isAnchorHeading tid e = false)
        ∧ isWikitable t = true
        ∧ (∀ e ∈ mid, isWikitable e = false)
        ∧ rws = t.tableRows)
    ∧ (banksLocate doc tid = .error headingNotFound
        ↔ ∀ e ∈ doc, isAnchorHeading tid e = false)
    ∧ (banksLocate doc tid = .error tableNotFound
        ↔ ∃ pre a rest, doc = pre ++ a :: rest
            ∧ isAnchorHeading tid a = true
            ∧ (∀ e ∈ pre, isAnchorHeading tid e = false)
            ∧ ∀ e ∈ rest, isWikitable e = false) := by
  refine ⟨?_, ?_, ?_⟩
  · intro rws
    constructor
    · intro h
      cases h1 : findSplit (isAnchorHeading tid) doc with
      | none =>
          rw [banksLocate_no_heading doc tid h1] at h
          exact absurd h (by simp)
      | some pr =>
          obtain ⟨a, rest⟩ := pr
          cases h2 : findSplit isWikitable rest with
          | none =>
              rw [banksLocate_no_table doc tid a rest h1 h2] at h
              exact absurd h (by simp)
          | some pr2 =>
              obtain ⟨t, post⟩ := pr2
              rw [banksLocate_found doc tid a t rest post h1 h2] at h
              simp at h
              obtain ⟨pre, hdoc, ha, hpre⟩ := (findSplit_eq_some_iff _ _ _ _).mp h1
              obtain ⟨mid, hrest, ht, hmid⟩ := (findSplit_eq_some_iff _ _ _ _).mp h2
              refine ⟨pre, a, mid, t, post, ?_, ha, hpre, ht, hmid, h.symm⟩
              rw [hdoc, hrest]
    · rintro ⟨pre, a, mid, t, post, hdoc, ha, hpre, ht, hmid, rfl⟩
      exact banksLocate_found doc tid a t (mid ++ t :: post) post
        ((findSplit_eq_some_iff _ _ _ _).mpr ⟨pre, hdoc, ha, hpre⟩)
        ((findSplit_eq_some_iff _ _ _ _).mpr ⟨mid, rfl, ht, hmid⟩)
  · constructor
    · intro h
      cases h1 : findSplit (isAnchorHeading tid) doc with
      | none => exact (findSplit_eq_none_iff _ _).mp h1
      | some pr =>
          obtain ⟨a, rest⟩ := pr
          cases h2 : findSplit isWikitable rest with
          | none =>
              rw [banksLocate_no_table doc tid a rest h1 h2] at h
              simp at h
              exact absurd h (by decide)
          | some pr2 =>
              obtain ⟨t, post⟩ := pr2
              rw [banksLocate_found doc tid a t rest post h1 h2] at h
              exact absurd h (by simp)
    · intro h
      exact banksLocate_no_heading doc tid ((findSplit_eq_none_iff _ _).mpr h)
  · constructor
    · intro h
      cases h1 : findSplit (isAnchorHeading tid) doc with
      | none =>
          rw [banksLocate_no_heading doc tid h1] at h
          simp at h
          exact absurd h (by decide)
      | some pr =>
          obtain ⟨a, rest⟩ := pr
          cases h2 : findSplit isWikitable rest with
          | some pr2 =>
              obtain ⟨t, post⟩ := pr2
              rw [banksLocate_found doc tid a t rest post h1 h2] at h
              exact absurd h (by simp)
          | none =>
              obtain ⟨pre, hdoc, ha, hpre⟩ := (findSplit_eq_some_iff _ _ _ _).mp h1
              exact ⟨pre, a, rest, hdoc, ha, hpre, (findSplit_eq_none_iff _ _).mp h2⟩
    · rintro ⟨pre, a, rest, hdoc, ha, hpre, hres⟩
      exact banksLocate_no_table doc tid a rest
        ((findSplit_eq_some_iff _ _ _ _).mpr ⟨pre, hdoc, ha, hpre⟩)
        ((findSplit_eq_none_iff _ _).mpr hres)

/-! ## DataFrame lemmas -/

theorem colIdx?_eq_none_iff (cols : List String) (c : String) :
    colIdx? cols c = none ↔ c ∉ cols := by
  induction cols with
  | nil => simp [colIdx?]
  | cons a t ih =>
      by_cases h : a = c
      · simp [colIdx?, h]
      · simp only [colIdx?, if_neg h, Option.map_eq_none', ih, List.mem_cons, not_or]
        constructor
        · intro hnt
          exact ⟨fun e => h e.symm, hnt⟩
        · intro hh
          exact hh.2

theorem colIdx?_lt (cols : List String) (c : String) (j : ℕ)
    (h : colIdx? cols c = some j) : j < cols.length ∧ cols.getD j "" = c := by
  induction cols generalizing j with
  | nil => simp [colIdx?] at h
  | cons a t ih =>
      by_cases ha : a = c
      · simp [colIdx?, ha] at h
        subst h
        exact ⟨by simp, by simp [ha]⟩
      · simp [colIdx?, ha] at h
        obtain ⟨j2, hj2, rfl⟩ := h
        have := ih j2 hj2
        exact ⟨by simpa using Nat.succ_lt_succ this.1, by simpa using this.2⟩

theorem colIdx?_append_of_some (cols l : List String) (c : String) (j : ℕ)
    (h : colIdx? cols c = some j) : colIdx? (cols ++ l) c = some j := by
  induction cols generalizing j with
  | nil => simp [colIdx?] at h
  | cons a t ih =>
      by_cases ha : a = c
      · simp [colIdx?, ha] at h ⊢
        exact h
      · simp [colIdx?, ha] at h ⊢
        obtain ⟨j2, hj2, rfl⟩ := h
        exact ⟨j2, ih j2 hj2, rfl⟩

theorem colIdx?_append_fresh (cols : List String) (c : String) (h : c ∉ cols) :
    colIdx? (cols ++ [c]) c = some cols.length := by
  induction cols with
  | nil => simp [colIdx?]
  | cons a t ih =>
      have ha : a ≠ c := fun e => h (by simp [e])
      simp [colIdx?, ha, ih (fun hc => h (by simp [hc]))]

theorem colIdx?_inj (cols : List String) (c u : String) (j : ℕ)
    (hc : colIdx? cols c = some j) (hu : colIdx? cols u = some j) : c = u := by
  have h1 := colIdx?_lt cols c j hc
  have h2 := colIdx?_lt cols u j hu
  rw [← h1.2, h2.2]

theorem list_set_getD_self {α : Type} (d : α) :
    ∀ (l : List α) (j : ℕ), j < l.length → l.set j (l.getD j d) = l := by
  intro l
  induction l with
  | nil => intro j h; simp at h
  | cons a t ih =>
      intro j h
      cases j with
      | zero => simp
      | succ j2 =>
          simp only [List.set, List.getD_cons_succ]
          rw [ih j2 (by simpa using h)]

theorem DF.getCol?_length (df : DF) (c : String) (b : List Val)
    (h : df.getCol? c = some b) : b.length = df.rows.length := by
  unfold DF.getCol? at h
  cases hidx : colIdx? df.cols c with
  | none => rw [hidx] at h; simp at h
  | some j =>
      rw [hidx] at h
      simp at h
      rw [← h]
      simp

theorem DF.setCol_rows_length (df : DF) (c : String) (vs : List Val)
    (hlen : vs.length = df.rows.length) :
    (df.setCol c vs).rows.length = df.rows.length := by
  unfold DF.setCol
  cases hidx : colIdx? df.cols c <;> simp [List.length_zip, hlen]

theorem DF.setCol_wf (df : DF) (c : String) (vs : List Val)
    (hwf : df.WF) (hlen : vs.length = df.rows.length) : (df.setCol c vs).WF := by
  unfold DF.WF
  intro r hr
  cases hidx : colIdx? df.cols c with
  | some j =>
      simp only [DF.setCol, hidx] at hr ⊢
      simp at hr
      obtain ⟨rv, v, hmem, rfl⟩ := hr
      simp
      exact hwf rv (List.of_mem_zip hmem).1
  | none =>
      simp only [DF.setCol, hidx] at hr ⊢
      simp at hr
      obtain ⟨rv, v, hmem, rfl⟩ := hr
      simp
      rw [hwf rv (List.of_mem_zip hmem).1]

theorem DF.getCol?_setCol_self (df : DF) (c : String) (vs : List Val)
    (hwf : df.WF) (hlen : vs.length = df.rows.length) :
    (df.setCol c vs).getCol? c = some vs := by
  unfold DF.setCol DF.getCol?
  cases hidx : colIdx? df.cols c with
  | some j =>
      have hj := colIdx?_lt _ _ _ hidx
      simp only [hidx, Option.map_some']
      rw [List.map_map]
      have hcells : ∀ rv ∈ df.rows.zip vs,
          ((fun r => r.getD j Val.nan) ∘ fun rv => rv.1.set j rv.2) rv = rv.2 := by
        intro rv hmem
        have hr := (List.of_mem_zip hmem).1
        have hrl : j < rv.1.length := by rw [hwf rv.1 hr]; exact hj.1
        simp only [Function.comp]
        rw [List.getD_eq_getElem?_getD, List.getElem?_set]
        simp [hrl]
      rw [List.map_congr_left hcells]
      simpa using List.map_snd_zip df.rows vs (le_of_eq hlen)
  | none =>
      have hfresh := colIdx?_append_fresh df.cols c ((colIdx?_eq_none_iff _ _).mp hidx)
      simp only [hidx, hfresh, Option.map_some']
      rw [List.map_map]
      have hcells : ∀ rv ∈ df.rows.zip vs,
          ((fun r => r.getD df.cols.length Val.nan) ∘ fun rv => rv.1 ++ [rv.2]) rv = rv.2 := by
        intro rv hmem
        have hr := (List.of_mem_zip hmem).1
        have hrl : rv.1.length = df.cols.length := hwf rv.1 hr
        simp only [Function.comp]
        rw [List.getD_append_right _ _ _ _ (le_of_eq hrl)]
        simp [hrl]
      rw [List.map_congr_left hcells]
      simpa using List.map_snd_zip df.rows vs (le_of_eq hlen)

theorem DF.getCol?_setCol_ne (df : DF) (c u : String) (vs : List Val)
    (hwf : df.WF) (hlen : vs.length = df.rows.length) (hne : c ≠ u) :
    (df.setCol c vs).getCol? u = df.getCol? u := by
  unfold DF.setCol DF.getCol?
  cases hidx : colIdx? df.cols c with
  | some j =>
      cases hu : colIdx? df.cols u with
      | none => simp [hu]
      | some ju =>
          have hjne : j ≠ ju := fun hE => hne (colIdx?_inj _ _ _ _ (hE ▸ hidx) hu)
          simp only [hu, Option.map_some']
          rw [List.map_map]
          have hcells : ∀ rv ∈ df.rows.zip vs,
              ((fun r => r.getD ju Val.nan) ∘ fun rv => rv.1.set j rv.2) rv
                = rv.1.getD ju Val.nan := by
            intro rv _
            simp only [Function.comp]
            rw [List.getD_eq_getElem?_getD, List.getElem?_set_ne hjne,
              ← List.getD_eq_getElem?_getD]
          rw [List.map_congr_left hcells]
          have : List.map (fun rv => rv.1.getD ju Val.nan) (df.rows.zip vs)
              = List.map (fun r => r.getD ju Val.nan) (List.map Prod.fst (df.rows.zip vs)) := by
            rw [List.map_map]
            rfl
          rw [this, List.map_fst_zip df.rows vs (le_of_eq hlen.symm)]
  | none =>
      cases hu : colIdx? df.cols u with
      | none =>
          have hnu : u ∉ df.cols ++ [c] := by
            intro hmem
            rcases List.mem_append.mp hmem with hmem | hmem
            · exact (colIdx?_eq_none_iff _ _).mp hu hmem
            · have huc : u = c := by simpa using hmem
              exact hne huc.symm
          simp [hu, (colIdx?_eq_none_iff _ _).mpr hnu]
      | some ju =>
          have hju := colIdx?_lt _ _ _ hu
          simp only [hu, colIdx?_append_of_some df.cols [c] u ju hu, Option.map_some']
          rw [List.map_map]
          have hcells : ∀ rv ∈ df.rows.zip vs,
              ((fun r => r.getD ju Val.nan) ∘ fun rv => rv.1 ++ [rv.2]) rv
                = rv.1.getD ju Val.nan := by
            intro rv hmem
            have hr := (List.of_mem_zip hmem).1
            have hrl : ju < rv.1.length := by rw [hwf rv.1 hr]; exact hju.1
            simp only [Function.comp]
            exact List.getD_append _ _ _ _ hrl
          rw [List.map_congr_left hcells]
          have : List.map (fun rv => rv.1.getD ju Val.nan) (df.rows.zip vs)
              = List.map (fun r => r.getD ju Val.nan) (List.map Prod.fst (df.rows.zip vs)) := by
            rw [List.map_map]
            rfl
          rw [this, List.map_fst_zip df.rows vs (le_of_eq hlen.symm)]

theorem DF.setCol_self_of_getCol (df : DF) (c : String) (vs : List Val)
    (hwf : df.WF) (h : df.getCol? c = some vs) : df.setCol c vs = df := by
  unfold DF.getCol? at h
  cases hidx : colIdx? df.cols c with
  | none => rw [hidx] at h; simp at h
  | some j =>
      rw [hidx] at h
      simp only [Option.map_some', Option.some.injEq] at h
      have hj := (colIdx?_lt _ _ _ hidx).1
      unfold DF.setCol
      rw [hidx]
      have hrows : (df.rows.zip vs).map (fun rv => rv.1.set j rv.2) = df.rows := by
        rw [← h]
        have hz : df.rows.zip (df.rows.map (fun r => r.getD j Val.nan))
            = df.rows.map (fun r => (r, r.getD j Val.nan)) := by
          nth_rewrite 1 [← List.map_id df.rows]
          rw [List.zip_map']
          simp
        rw [hz, List.map_map]
        have hcells : ∀ r ∈ df.rows,
            ((fun rv => rv.1.set j rv.2) ∘ fun r => (r, r.getD j Val.nan)) r = id r := by
          intro r hr
          simp only [Function.comp, id]
          exact list_set_getD_self Val.nan r j (by rw [hwf r hr]; exact hj)
        rw [List.map_congr_left hcells, List.map_id]
      show DF.mk df.cols ((df.rows.zip vs).map (fun rv => rv.1.set j rv.2)) = df
      rw [hrows]

theorem getColE_ok_iff (df : DF) (c : String) (b : List Val) :
    getColE df c = .ok b ↔ df.getCol? c = some b := by
  unfold getColE
  cases h : df.getCol? c <;> simp

theorem seriesScale_ok_iff (r : ℚ) (vs out : List Val) :
    seriesScale r vs = .ok out
      ↔ (vs.all isNumericCell = true ∧ out = vs.map (valScale r)) := by
  unfold seriesScale
  by_cases h : vs.all isNumericCell <;> simp [h, eq_comm]

theorem DF.setCol_fresh_cols (df : DF) (c : String) (vs : List Val)
    (h : colIdx? df.cols c = none) : (df.setCol c vs).cols = df.cols ++ [c] := by
  simp [DF.setCol, h]

theorem DF.setCol_fresh_row_extends (df : DF) (c : String) (vs : List Val)
    (h : colIdx? df.cols c = none) (hlen : vs.length = df.rows.length)
    (k : ℕ) (hk : k < df.rows.length) :
    df.rows.getD k [] <+: (df.setCol c vs).rows.getD k [] := by
  simp only [DF.setCol, h]
  have hzl : (df.rows.zip vs).length = df.rows.length := by simp [hlen]
  have hk2 : k < (List.map (fun rv => rv.1 ++ [rv.2]) (df.rows.zip vs)).length := by
    simp [hzl, hk]
  rw [List.getD_eq_getElem _ _ hk2, List.getD_eq_getElem _ _ hk]
  simp only [List.getElem_map, List.getElem_zip]
  exact List.prefix_append _ _

/-- Anatomy of a successful banks transform run: under the invariants that
hold when transform is reached from the pipeline (rectangular frame, USD
column present and free of text cells), the run succeeds, the caller's
frame after the call is the returned frame, and the returned frame is the
input frame with the three scaled-and-rounded columns written, the USD
column untouched. -/
theorem banksTransform_ok_spec (g e i : ℚ) (df : DF) (b : List Val)
    (hwf : df.WF) (hb : df.getCol? usdCol = some b)
    (hnum : b.all isNumericCell = true) :
    ∃ out, banksTransform g e i df = .ok out
      ∧ transformCallerAfter g e i df = out
      ∧ out = ((df.setCol gbpCol (b.map (valScale g))).setCol eurCol
          (b.map (valScale e))).setCol inrCol (b.map (valScale i))
      ∧ out.WF
      ∧ out.rows.length = df.rows.length
      ∧ out.getCol? usdCol = some b
      ∧ out.getCol? gbpCol = some (b.map (valScale g))
      ∧ out.getCol? eurCol = some (b.map (valScale e))
      ∧ out.getCol? inrCol = some (b.map (valScale i)) := by
  have hblen : b.length = df.rows.length := DF.getCol?_length df usdCol b hb
  have hlen1 : (b.map (valScale g)).length = df.rows.length := by simpa using hblen
  have hlen2 : (b.map (valScale e)).length = df.rows.length := by simpa using hblen
  have hlen3 : (b.map (valScale i)).length = df.rows.length := by simpa using hblen
  have hwf1 : (df.setCol gbpCol (b.map (valScale g))).WF :=
    DF.setCol_wf df gbpCol _ hwf hlen1
  have hrows1 : (df.setCol gbpCol (b.map (valScale g))).rows.length = df.rows.length :=
    DF.setCol_rows_length df gbpCol _ hlen1
  have husd1 : (df.setCol gbpCol (b.map (valScale g))).getCol? usdCol = some b := by
    rw [DF.getCol?_setCol_ne df gbpCol usdCol _ hwf hlen1 (by decide)]
    exact hb
  have hlen2a : (b.map (valScale e)).length
      = (df.setCol gbpCol (b.map (valScale g))).rows.length := by rw [hrows1]; exact hlen2
  have hwf2 : ((df.setCol gbpCol (b.map (valScale g))).setCol eurCol
      (b.map (valScale e))).WF := DF.setCol_wf _ eurCol _ hwf1 hlen2a
  have hrows2 : ((df.setCol gbpCol (b.map (valScale g))).setCol eurCol
      (b.map (valScale e))).rows.length = df.rows.length := by
    rw [DF.setCol_rows_length _ eurCol _ hlen2a, hrows1]
  have husd2 : ((df.setCol gbpCol (b.map (valScale g))).setCol eurCol
      (b.map (valScale e))).getCol? usdCol = some b := by
    rw [DF.getCol?_setCol_ne _ eurCol usdCol _ hwf1 hlen2a (by decide)]
    exact husd1
  have hlen3a : (b.map (valScale i)).length
      = ((df.setCol gbpCol (b.map (valScale g))).setCol eurCol
          (b.map (valScale e))).rows.length := by rw [hrows2]; exact hlen3
  have hwf3 : (((df.setCol gbpCol (b.map (valScale g))).setCol eurCol
      (b.map (valScale e))).setCol inrCol (b.map (valScale i))).WF :=
    DF.setCol_wf _ inrCol _ hwf2 hlen3a
  have hrows3 : (((df.setCol gbpCol (b.map (valScale g))).setCol eurCol
      (b.map (valScale e))).setCol inrCol (b.map (valScale i))).rows.length
      = df.rows.length := by
    rw [DF.setCol_rows_length _ inrCol _ hlen3a, hrows2]
  have husd3 : (((df.setCol gbpCol (b.map (valScale g))).setCol eurCol
      (b.map (valScale e))).setCol inrCol (b.map (valScale i))).getCol? usdCol
      = some b := by
    rw [DF.getCol?_setCol_ne _ inrCol usdCol _ hwf2 hlen3a (by decide)]
    exact husd2
  have hgbp3 : (((df.setCol gbpCol (b.map (valScale g))).setCol eurCol
      (b.map (valScale e))).setCol inrCol (b.map (valScale i))).getCol? gbpCol
      = some (b.map (valScale g)) := by
    rw [DF.getCol?_setCol_ne _ inrCol gbpCol _ hwf2 hlen3a (by decide),
      DF.getCol?_setCol_ne _ eurCol gbpCol _ hwf1 hlen2a (by decide)]
    exact DF.getCol?_setCol_self df gbpCol _ hwf hlen1
  have heur3 : (((df.setCol gbpCol (b.map (valScale g))).setCol eurCol
      (b.map (valScale e))).setCol inrCol (b.map (valScale i))).getCol? eurCol
      = some (b.map (valScale e)) := by
    rw [DF.getCol?_setCol_ne _ inrCol eurCol _ hwf2 hlen3a (by decide)]
    exact DF.getCol?_setCol_self _ eurCol _ hwf1 hlen2a
  have hinr3 : (((df.setCol gbpCol (b.map (valScale g))).setCol eurCol
      (b.map (valScale e))).setCol inrCol (b.map (valScale i))).getCol? inrCol
      = some (b.map (valScale i)) :=
    DF.getCol?_setCol_self _ inrCol _ hwf2 hlen3a
  have e1 : getColE df usdCol = .ok b := (getColE_ok_iff _ _ _).mpr hb
  have s1 : seriesScale g b = .ok (b.map (valScale g)) :=
    (seriesScale_ok_iff _ _ _).mpr ⟨hnum, rfl⟩
  have e2 : getColE (df.setCol gbpCol (b.map (valScale g))) usdCol = .ok b :=
    (getColE_ok_iff _ _ _).mpr husd1
  have s2 : seriesScale e b = .ok (b.map (valScale e)) :=
    (seriesScale_ok_iff _ _ _).mpr ⟨hnum, rfl⟩
  have e3 : getColE ((df.setCol gbpCol (b.map (valScale g))).setCol eurCol
      (b.map (valScale e))) usdCol = .ok b := (getColE_ok_iff _ _ _).mpr husd2
  have s3 : seriesScale i b = .ok (b.map (valScale i)) :=
    (seriesScale_ok_iff _ _ _).mpr ⟨hnum, rfl⟩
  refine ⟨_, ?_, ?_, rfl, hwf3, hrows3, husd3, hgbp3, heur3, hinr3⟩
  · simp only [banksTransform, e1, s1, e2, s2, e3, s3]
  · simp only [transformCallerAfter, e1, s1, e2, s2, e3, s3]

/-- Shape of a successful banks transform when the three derived columns
are new (the pipeline case): the column list is extended on the right by
exactly the three derived names and every original row survives in place
as a prefix of the corresponding output row. -/
theorem banksTransform_fresh_shape (g e i : ℚ) (df : DF) (b : List Val)
    (hwf : df.WF) (hb : df.getCol? usdCol = some b)
    (hnum : b.all isNumericCell = true)
    (hg : colIdx? df.cols gbpCol = none)
    (he : colIdx? df.cols eurCol = none)
    (hi : colIdx? df.cols inrCol = none) :
    ∃ out, banksTransform g e i df = .ok out
      ∧ transformCallerAfter g e i df = out
      ∧ out.cols = df.cols ++ [gbpCol, eurCol, inrCol]
      ∧ out.rows.length = df.rows.length
      ∧ (∀ k, k < df.rows.length → df.rows.getD k [] <+: out.rows.getD k [])
      ∧ out.getCol? usdCol = some b := by
  obtain ⟨out, hT, hCA, hdef, _, hrows, husd, _, _, _⟩ :=
    banksTransform_ok_spec g e i df b hwf hb hnum
  have hblen : b.length = df.rows.length := DF.getCol?_length df usdCol b hb
  have hlen1 : (b.map (valScale g)).length = df.rows.length := by simpa using hblen
  have hlen2 : (b.map (valScale e)).length = df.rows.length := by simpa using hblen
  have hlen3 : (b.map (valScale i)).length = df.rows.length := by simpa using hblen
  have hc1 : (df.setCol gbpCol (b.map (valScale g))).cols = df.cols ++ [gbpCol] :=
    DF.setCol_fresh_cols df gbpCol _ hg
  have hrows1 : (df.setCol gbpCol (b.map (valScale g))).rows.length = df.rows.length :=
    DF.setCol_rows_length df gbpCol _ hlen1
  have he1 : colIdx? (df.setCol gbpCol (b.map (valScale g))).cols eurCol = none := by
    rw [hc1, colIdx?_eq_none_iff]
    intro hmem
    rcases List.mem_append.mp hmem with hmem | hmem
    · exact (colIdx?_eq_none_iff _ _).mp he hmem
    · have : eurCol = gbpCol := by simpa using hmem
      exact absurd this (by decide)
  have hc2 : ((df.setCol gbpCol (b.map (valScale g))).setCol eurCol
      (b.map (valScale e))).cols = df.cols ++ [gbpCol] ++ [eurCol] := by
    rw [DF.setCol_fresh_cols _ eurCol _ he1, hc1]
  have hrows2 : ((df.setCol gbpCol (b.map (valScale g))).setCol eurCol
      (b.map (valScale e))).rows.length = df.rows.length := by
    rw [DF.setCol_rows_length _ eurCol _ (by rw [hrows1]; exact hlen2), hrows1]
  have hi2 : colIdx? ((df.setCol gbpCol (b.map (valScale g))).setCol eurCol
      (b.map (valScale e))).cols inrCol = none := by
    rw [hc2, colIdx?_eq_none_iff]
    intro hmem
    rcases List.mem_append.mp hmem with hmem | hmem
    · rcases List.mem_append.mp hmem with hmem | hmem
      · exact (colIdx?_eq_none_iff _ _).mp hi hmem
      · have : inrCol = gbpCol := by simpa using hmem
        exact absurd this (by decide)
    · have : inrCol = eurCol := by simpa using hmem
      exact absurd this (by decide)
  refine ⟨out, hT, hCA, ?_, hrows, ?_, husd⟩
  · rw [hdef, DF.setCol_fresh_cols _ inrCol _ hi2, hc2]
    simp
  · intro k hk
    have p1 : df.rows.getD k []
        <+: (df.setCol gbpCol (b.map (valScale g))).rows.getD k [] :=
      DF.setCol_fresh_row_extends df gbpCol _ hg hlen1 k hk
    have p2 : (df.setCol gbpCol (b.map (valScale g))).rows.getD k []
        <+: ((df.setCol gbpCol (b.map (valScale g))).setCol eurCol
            (b.map (valScale e))).rows.getD k [] :=
      DF.setCol_fresh_row_extends _ eurCol _ he1 (by rw [hrows1]; exact hlen2) k
        (by rw [hrows1]; exact hk)
    have p3 : ((df.setCol gbpCol (b.map (valScale g))).setCol eurCol
        (b.map (valScale e))).rows.getD k []
        <+: out.rows.getD k [] := by
      rw [hdef]
      exact DF.setCol_fresh_row_extends _ inrCol _ hi2 (by rw [hrows2]; exact hlen3) k
        (by rw [hrows2]; exact hk)
    exact (p1.trans p2).trans p3

/-! ## Claim C7: derived columns are uniform scaled-and-rounded transforms -/

/-- C7: on any frame as derive receives it from the pipeline (rectangular,
USD column present with numeric-or-NaN cells), the banks transform succeeds
and writes each derived column as the elementwise map of the base column
under scale-then-round-to-2 (valScale), with no row skipped (column = map,
row count preserved); the GDP derive is likewise the elementwise
divide-by-1000-then-round-to-2 map over all rows. -/
theorem derive_uniform (g e i : ℚ) (df : DF) (b : List Val)
    (hwf : df.WF) (hb : df.getCol? usdCol = some b)
    (hnum : b.all isNumericCell = true) :
    ∃ out, banksTransform g e i df = .ok out
      ∧ out.getCol? gbpCol = some (b.map (valScale g))
      ∧ out.getCol? eurCol = some (b.map (valScale e))
      ∧ out.getCol? inrCol = some (b.map (valScale i))
      ∧ out.rows.length = df.rows.length
      ∧ (∀ q r, valScale r (Val.num q) = Val.num (round2 (q * r)))
      ∧ (∀ rows : List (String × Val),
          gdpDerive rows = rows.map (fun p => (p.1, valDivRound p.2))
          ∧ (gdpDerive rows).length = rows.length)
      ∧ (∀ q, valDivRound (Val.num q) = Val.num (round2 (q / 1000))) := by
  obtain ⟨out, hT, _, _, _, hrows, _, hgbp, heur, hinr⟩ :=
    banksTransform_ok_spec g e i df b hwf hb hnum
  exact ⟨out, hT, hgbp, heur, hinr, hrows, fun q r => rfl,
    fun rows => ⟨rfl, by simp [gdpDerive]⟩, fun q => rfl⟩

/-- Witness for C7, the scenario of the spec: base column holding 100.0,
GBP scale 0.8, derived value 80.0 after rounding to two decimals. -/
theorem derive_uniform_witness :
    ∃ out, banksTransform (8/10) 1 1
        (DF.mk ["Name", usdCol] [[Val.str "Bank A", Val.num 100]]) = .ok out
      ∧ out.getCol? gbpCol = some [Val.num 80] := by
  obtain ⟨out, hT, hgbp, _⟩ := derive_uniform (8/10) 1 1
    (DF.mk ["Name", usdCol] [[Val.str "Bank A", Val.num 100]]) [Val.num 100]
    (by intro r hr; simp at hr; subst hr; rfl)
    (by simp [DF.getCol?, colIdx?, usdCol])
    (by simp [isNumericCell])
  refine ⟨out, hT, ?_⟩
  rw [hgbp]
  have hv : valScale (8/10) (Val.num 100) = Val.num 80 := by
    simp only [valScale]
    norm_num [round2, roundHalfEven]
  simp [hv]

/-! ## Claim C9: derive is idempotent, but not free of side effects -/

/-- C9 counterexample (to the no-side-effects half of the claim): the banks
transform writes its derived columns into the caller's frame in place
(Python object mutation, modelled by transformCallerAfter), so after the
call the caller's frame differs from what was passed in — at this concrete
input it has grown three columns. -/
theorem derive_inplace_side_effect :
    transformCallerAfter (8/10) 1 1
        (DF.mk ["Name", usdCol] [[Val.str "Bank A", Val.num 100]])
      ≠ DF.mk ["Name", usdCol] [[Val.str "Bank A", Val.num 100]] := by
  obtain ⟨out, _, hCA, hcols, _⟩ := banksTransform_fresh_shape (8/10) 1 1
    (DF.mk ["Name", usdCol] [[Val.str "Bank A", Val.num 100]]) [Val.num 100]
    (by intro r hr; simp at hr; subst hr; rfl)
    (by simp [DF.getCol?, colIdx?, usdCol])
    (by simp [isNumericCell])
    (by simp [colIdx?, usdCol, gbpCol])
    (by simp [colIdx?, usdCol, eurCol])
    (by simp [colIdx?, usdCol, inrCol])
  rw [hCA]
  intro hEq
  rw [hEq] at hcols
  simp at hcols

/-- C9 as amended: derive is idempotent and deterministic — running the
banks transform a second time on its own output reproduces that output
exactly (for any frame, failing runs included) — but it is not pure: it
mutates its input in place (see the counterexample). -/
theorem derive_idempotent (g e i : ℚ) (df : DF) (hwf : df.WF) :
    (banksTransform g e i df).bind (banksTransform g e i)
      = banksTransform g e i df := by
  cases h1 : getColE df usdCol with
  | error m => simp [banksTransform, h1, Except.bind]
  | ok b =>
      cases h2 : seriesScale g b with
      | error m => simp [banksTransform, h1, h2, Except.bind]
      | ok v1 =>
          obtain ⟨hnum, rfl⟩ := (seriesScale_ok_iff _ _ _).mp h2
          have hb : df.getCol? usdCol = some b := (getColE_ok_iff _ _ _).mp h1
          obtain ⟨out, hT, _, _, hwfO, _, husdO, hgbpO, heurO, hinrO⟩ :=
            banksTransform_ok_spec g e i df b hwf hb hnum
          rw [hT]
          show banksTransform g e i out = .ok out
          have e1 : getColE out usdCol = .ok b := (getColE_ok_iff _ _ _).mpr husdO
          have s1 : seriesScale g b = .ok (b.map (valScale g)) :=
            (seriesScale_ok_iff _ _ _).mpr ⟨hnum, rfl⟩
          have hset1 : out.setCol gbpCol (b.map (valScale g)) = out :=
            DF.setCol_self_of_getCol out gbpCol _ hwfO hgbpO
          have s2 : seriesScale e b = .ok (b.map (valScale e)) :=
            (seriesScale_ok_iff _ _ _).mpr ⟨hnum, rfl⟩
          have hset2 : out.setCol eurCol (b.map (valScale e)) = out :=
            DF.setCol_self_of_getCol out eurCol _ hwfO heurO
          have s3 : seriesScale i b = .ok (b.map (valScale i)) :=
            (seriesScale_ok_iff _ _ _).mpr ⟨hnum, rfl⟩
          have hset3 : out.setCol inrCol (b.map (valScale i)) = out :=
            DF.setCol_self_of_getCol out inrCol _ hwfO hinrO
          simp only [banksTransform, e1, s1, hset1, s2, hset2, s3, hset3]

/-- Witness for C9 at a concrete frame. -/
theorem derive_idempotent_witness :
    (banksTransform (8/10) 1 1
        (DF.mk ["Name", usdCol] [[Val.str "Bank A", Val.num 100]])).bind
        (banksTransform (8/10) 1 1)
      = banksTransform (8/10) 1 1
        (DF.mk ["Name", usdCol] [[Val.str "Bank A", Val.num 100]]) :=
  derive_idempotent (8/10) 1 1 _ (by intro r hr; simp at hr; subst hr; rfl)

/-! ## Claim C10: transform mutates in place and extends the frame -/

/-- C10: on the pipeline frame (rectangular, USD column present with
numeric-or-NaN cells, derived names fresh), the banks transform succeeds;
the caller's frame after the call IS the returned frame (in-place column
assignment); its column list is the original list with exactly
MC_GBP_Billion, MC_EUR_Billion, MC_INR_Billion appended; the row count is
unchanged; every original row survives at its position as a prefix of the
output row (no cell moved); and the USD column is untouched. -/
theorem transform_inplace_extends (g e i : ℚ) (df : DF) (b : List Val)
    (hwf : df.WF) (hb : df.getCol? usdCol = some b)
    (hnum : b.all isNumericCell = true)
    (hg : colIdx? df.cols gbpCol = none)
    (he : colIdx? df.cols eurCol = none)
    (hi : colIdx? df.cols inrCol = none) :
    ∃ out, banksTransform g e i df = .ok out
      ∧ transformCallerAfter g e i df = out
      ∧ out.cols = df.cols ++ [gbpCol, eurCol, inrCol]
      ∧ out.rows.length = df.rows.length
      ∧ (∀ k, k < df.rows.length → df.rows.getD k [] <+: out.rows.getD k [])
      ∧ out.getCol? usdCol = some b :=
  banksTransform_fresh_shape g e i df b hwf hb hnum hg he hi

/-- Witness for C10 at a concrete extracted frame. -/
theorem transform_inplace_extends_witness :
    ∃ out, banksTransform (8/10) 1 1
        (DF.mk ["Name", usdCol] [[Val.str "Bank A", Val.num 100]]) = .ok out
      ∧ transformCallerAfter (8/10) 1 1
          (DF.mk ["Name", usdCol] [[Val.str "Bank A", Val.num 100]]) = out
      ∧ out.cols = ["Name", usdCol, gbpCol, eurCol, inrCol] := by
  obtain ⟨out, hT, hCA, hcols, _⟩ := transform_inplace_extends (8/10) 1 1
    (DF.mk ["Name", usdCol] [[Val.str "Bank A", Val.num 100]]) [Val.num 100]
    (by intro r hr; simp at hr; subst hr; rfl)
    (by simp [DF.getCol?, colIdx?, usdCol])
    (by simp [isNumericCell])
    (by simp [colIdx?, usdCol, gbpCol])
    (by simp [colIdx?, usdCol, eurCol])
    (by simp [colIdx?, usdCol, inrCol])
  exact ⟨out, hT, hCA, by simpa using hcols⟩

/-! ## Claim C1: a missing numeric value reaches the banks sinks -/

/-- C1, banks variant, evaluated at the failing input: a row whose
market-cap cell is the unparseable text abc.  Line 46 drops NaN rows first
— the text cell is not NaN, so the row passes the row filter — and only
then does line 47 coerce, turning the cell into NaN; the NaN row is what
load_to_csv and load_to_db receive, with NaN propagated into all three
derived columns.  The GDP variant orders the two steps the other way round
and does satisfy the invariant: its transform output never carries a
missing value (last conjunct). -/
theorem banks_missing_reaches_sink :
    (banksRowFilter [("Bank X", Val.str "abc")]).length = 1
    ∧ banksSinkTable [("Bank X", Val.str "abc")] (8/10) (9/10) 80
        = .ok (DF.mk ["Name", usdCol, gbpCol, eurCol, inrCol]
            [[Val.str "Bank X", Val.nan, Val.nan, Val.nan, Val.nan]])
    ∧ Val.nan ∈ ([[Val.str "Bank X", Val.nan, Val.nan, Val.nan, Val.nan]]
        : List (List Val)).getD 0 []
    ∧ (∀ rows : List (String × String), ∀ p ∈ gdpTransform rows, p.2 ≠ Val.nan) := by
  refine ⟨by decide, by rfl, by decide, ?_⟩
  intro rows p hp
  simp only [gdpTransform, gdpDerive, List.mem_map] at hp
  obtain ⟨x, hx, rfl⟩ := hp
  simp only [gdpRowStage, gdpDropna, List.mem_filter] at hx
  obtain ⟨hx1, hx2⟩ := hx
  simp only [gdpClean, List.mem_map] at hx1
  obtain ⟨y, hy, rfl⟩ := hx1
  cases hc : parseFloat? (stripNoise y.2) with
  | none => simp [cleanCell, hc, Val.isMissing] at hx2
  | some q => simp [cleanCell, hc, valDivRound]

/-! ## Claim C2: fatal errors and the log -/

/-- C2 counterexample: a banks run on a document with no anchor heading.
The locator raises, nothing catches the exception, and the process dies
with the log holding exactly the one progress entry written before
extract — no log entry describes (or even mentions) the error. -/
theorem banks_fatal_error_unlogged :
    (banksRun [] (8/10) (9/10) 80).2 = .error headingNotFound
    ∧ (banksRun [] (8/10) (9/10) 80).1 = [banksPrelimMsg]
    ∧ ∀ entry ∈ (banksRun [] (8/10) (9/10) 80).1,
        strContains entry headingNotFound = false := by
  refine ⟨by rfl, by decide, by decide⟩

/-- C2 as amended: in the GDP variant, every fatal extract-stage error is
caught and logged as an entry embedding the error text before the process
returns gracefully; in the banks variant, by contrast, a run that ends in
an error leaves only fixed progress entries in the log — no entry
describing the error is ever written. -/
theorem fatal_error_logging (st : Bool) (doc : List Elem) (msg : String)
    (h : gdpExtractE st doc = .error msg) :
    gdpFailMsg msg ∈ gdpRun st doc
    ∧ ∀ (doc2 : List Elem) (g e i : ℚ) (m : String),
        (banksRun doc2 g e i).2 = .error m →
        ∀ entry ∈ (banksRun doc2 g e i).1,
          entry = banksPrelimMsg
          ∨ entry = "Data extraction complete. Initiating Transformation process" := by
  constructor
  · simp [gdpRun, h]
  · intro doc2 g e i m hm entry hentry
    cases hL : banksLocate doc2 banksAnchor with
    | error msg2 =>
        simp [banksRun, hL] at hentry
        exact Or.inl hentry
    | ok rws =>
        cases hT : banksTransform g e i
            (banksRecoerce (mkBanksDF (banksExtractClean (banksProject rws)))) with
        | error m2 =>
            simp [banksRun, hL, hT] at hentry
            exact hentry
        | ok dft =>
            rw [banksRun] at hm
            simp [hL, hT] at hm

/-- Witness for C2 (amended) at a concrete failing run: a non-200 fetch in
the GDP variant is logged as an ETL-process-failed entry. -/
theorem fatal_error_logging_witness :
    gdpFailMsg gdpFetchErr ∈ gdpRun false [] :=
  (fatal_error_logging false [] gdpFetchErr rfl).1
